import Mathlib

/-!
Verification of the game-state logic of `src/components/SpaceShooterGame.tsx`.

The embedding models the mutable `gameStateRef` record as the structure
`State`, and every operation that mutates it (the `gameLoop` tick, the
`Space`-key fire handler, `startLevel1`, `startLevel2`, `restartGame`) as a
pure function on `State`.  JavaScript numbers are modelled as rationals
(all arithmetic performed by the game logic is exact at these magnitudes),
`Date.now()` timestamps as integers (milliseconds), and the wall clock is
passed to each operation as an explicit `now` argument.  Rendering
(`sprite`, `app.stage`, `setGameInfo`, `createBackground`, `showMessage`)
is output-only and omitted; the `vx` field of `GameObject` is never read by
the logic and is omitted as well.
-/

set_option linter.unusedVariables false

/-- The `GameState` union type `'menu' | 'level1' | 'level2' | 'win' | 'lose'`
(source line 23). -/
inductive Outcome where
  | menu
  | level1
  | level2
  | win
  | lose
deriving DecidableEq

/-- A `GameObject` (source lines 5-13): center position, bounding-box size and
vertical velocity.  `vy` is set on bullets and read by the bullet-update
loops; it is never read on the player or on asteroids. -/
structure GO where
  x : ℚ
  y : ℚ
  width : ℚ
  height : ℚ
  vy : ℚ
deriving DecidableEq

/-- The `Boss` interface (source lines 15-21). -/
structure Boss where
  x : ℚ
  y : ℚ
  width : ℚ
  height : ℚ
  hp : Int
  maxHp : Int
  lastShot : Int
  movingRight : Bool
  moveStartTime : Int
deriving DecidableEq

/-- View of a boss as a plain game object, as when the source passes
`gameState.boss` to `checkCollision`, which reads only position and size. -/
def Boss.toGO (b : Boss) : GO :=
  { x := b.x, y := b.y, width := b.width, height := b.height, vy := 0 }

/-- Screen width: the PIXI application is initialized at 1280x720
(source lines 487-488). -/
def screenW : ℚ := 1280

/-- Screen height of the 1280x720 application surface. -/
def screenH : ℚ := 720

/-- The mutable `gameStateRef.current` record (source lines 28-50).  Of the
`keys` map only `ArrowLeft` and `ArrowRight` are ever read, so it is modelled
as those two flags. -/
structure State where
  player : Option GO
  bullets : List GO
  asteroids : List GO
  boss : Option Boss
  bossBullets : List GO
  keyLeft : Bool
  keyRight : Bool
  bulletsRemaining : Int
  timeRemaining : ℚ
  gameState : Outcome
  lastTime : Int
deriving DecidableEq

/-- The initial value of `gameStateRef` (source lines 39-50). -/
def initState : State :=
  { player := none
  , bullets := []
  , asteroids := []
  , boss := none
  , bossBullets := []
  , keyLeft := false
  , keyRight := false
  , bulletsRemaining := 10
  , timeRemaining := 60
  , gameState := Outcome.menu
  , lastTime := 0 }

/-- `createPlayer` (source lines 60-93): the player spawns at
`(width/2, height-60) = (640, 660)` with a 30x40 bounding box. -/
def mkPlayer : GO :=
  { x := 640, y := 660, width := 30, height := 40, vy := 0 }

/-- `createBullet` (source lines 95-112): a 6x6 object with velocity `-8`
for a player bullet and `6` for a boss bullet. -/
def mkBullet (x y : ℚ) (isPlayerBullet : Bool) : GO :=
  { x := x, y := y, width := 6, height := 6
  , vy := if isPlayerBullet then -8 else 6 }

/-- `createAsteroid` (source lines 114-150): a 60x60 object at the given
position (the polygon shape is rendering-only). -/
def mkAsteroid (x y : ℚ) : GO :=
  { x := x, y := y, width := 60, height := 60, vy := 0 }

/-- `createBoss` (source lines 152-185): an 80x60 object at `(640, 100)` with
4 hit points, `lastShot = 0` and `moveStartTime = Date.now()`. -/
def mkBoss (now : Int) : Boss :=
  { x := 640, y := 100, width := 80, height := 60
  , hp := 4, maxHp := 4, lastShot := 0, movingRight := true
  , moveStartTime := now }

/-- `checkCollision` (source lines 204-220): strict axis-aligned
bounding-box overlap of two center-anchored objects. -/
def checkCollision (o1 o2 : GO) : Bool :=
  decide (o1.x - o1.width / 2 < o2.x + o2.width / 2) &&
  decide (o1.x + o1.width / 2 > o2.x - o2.width / 2) &&
  decide (o1.y - o1.height / 2 < o2.y + o2.height / 2) &&
  decide (o1.y + o1.height / 2 > o2.y - o2.height / 2)

/-- The five asteroids created by `startLevel1` (source lines 250-255); the
calls to `Math.random()` are modelled by the position oracle `pos`. -/
def mkAsteroids (pos : Fin 5 → ℚ × ℚ) : List GO :=
  (List.finRange 5).map fun i => mkAsteroid (pos i).1 (pos i).2

/-- `startLevel1` (source lines 238-265).  It sets `player`, `asteroids`,
`bullets`, `bulletsRemaining`, `timeRemaining`, `gameState` and `lastTime`;
it leaves `boss` and `bossBullets` untouched (the source never writes them
here).  The inner `Date.now()` call is the `now` argument. -/
def startLevel1 (s : State) (pos : Fin 5 → ℚ × ℚ) (now : Int) : State :=
  { s with player := some mkPlayer
         , asteroids := mkAsteroids pos
         , bullets := []
         , bulletsRemaining := 10
         , timeRemaining := 60
         , gameState := Outcome.level1
         , lastTime := now }

/-- `startLevel2` (source lines 267-297): fresh player, fresh boss, cleared
bullet lists, counters reset; `asteroids` is untouched (it is empty whenever
the source calls this). -/
def startLevel2 (s : State) (now : Int) : State :=
  { s with player := some mkPlayer
         , boss := some (mkBoss now)
         , bossBullets := []
         , bullets := []
         , bulletsRemaining := 10
         , timeRemaining := 60
         , gameState := Outcome.level2
         , lastTime := now }

/-- `restartGame` (source lines 547-578): back to the menu with every entity
cleared; the counters `bulletsRemaining`/`timeRemaining` are not written
(only the display copy is reset). -/
def restartGame (s : State) : State :=
  { s with gameState := Outcome.menu
         , bullets := []
         , asteroids := []
         , boss := none
         , bossBullets := []
         , player := none }

/-- The `Space` branch of `handleKeyDown` (source lines 518-528): spawn one
bullet 20 units above the player and decrement the counter, but only when
`bulletsRemaining > 0` and a player object exists. -/
def fire (s : State) : State :=
  match s.player with
  | some p =>
      if 0 < s.bulletsRemaining then
        { s with bullets := s.bullets ++ [mkBullet p.x (p.y - 20) true]
               , bulletsRemaining := s.bulletsRemaining - 1 }
      else s
  | none => s

/-- The arrow-key part of `handleKeyDown`/`handleKeyUp` (source lines
518-519 and 530-532), which toggles the held-key flags. -/
def setKeys (s : State) (l r : Bool) : State :=
  { s with keyLeft := l, keyRight := r }

/-- Timer update at the top of `gameLoop` (source lines 310-313):
`timeRemaining -= (now - lastTime)/1000; lastTime = now`. -/
def afterTimer (s : State) (now : Int) : State :=
  { s with timeRemaining := s.timeRemaining - ((now - s.lastTime : Int) : ℚ) / 1000
         , lastTime := now }

/-- Player movement (source lines 326-335): 5 units left while `ArrowLeft` is
held and `x > 15`, then 5 units right while `ArrowRight` is held and
`x < screenW - 15`, the second test reading the already-updated `x`. -/
def movePlayer (s : State) : State :=
  match s.player with
  | none => s
  | some p =>
      let p1 := if s.keyLeft ∧ 15 < p.x then { p with x := p.x - 5 } else p
      let p2 := if s.keyRight ∧ p1.x < screenW - 15 then { p1 with x := p1.x + 5 } else p1
      { s with player := some p2 }

/-- Advance a bullet by its vertical velocity (`bullet.y += bullet.vy`,
source lines 339 and 409). -/
def advanceB (b : GO) : GO :=
  { b with y := b.y + b.vy }

/-- The player-bullet update (source lines 337-346):
`bullets.forEach` advances each visited bullet and, when its new `y` is
below 0, removes it with `splice`.  A `splice` during `forEach` shifts the
array down while the loop counter still advances, so the element that was
immediately after a removed bullet is skipped on this pass: it is neither
advanced nor tested. -/
def bulletPass : List GO → List GO
  | [] => []
  | [b] =>
      let b2 := advanceB b
      if b2.y < 0 then [] else [b2]
  | b :: c :: rest =>
      let b2 := advanceB b
      if b2.y < 0 then c :: bulletPass rest
      else b2 :: bulletPass (c :: rest)

/-- The state after the player-bullet update step of the tick. -/
def bulletStep (s : State) : State :=
  { s with bullets := bulletPass s.bullets }

/-- The inner loop of the level-1 collision scan (source lines 353-362):
asteroid indices are visited from the highest down, stopping at the first
overlap, so the hit reported is the overlapping asteroid of largest index.
Returns that index, or `none` when no asteroid overlaps the bullet. -/
def findLastHit (b : GO) : List GO → Option Nat
  | [] => none
  | a :: rest =>
      match findLastHit b rest with
      | some j => some (j + 1)
      | none => if checkCollision b a then some 0 else none

/-- The outer loop of the level-1 collision scan (source lines 351-363),
with the bullet list already reversed: bullets are visited from the highest
index down, and a hit removes the bullet and the struck asteroid
(`splice` at the current backward indices is safe). -/
def l1Aux : List GO → List GO → List GO × List GO
  | [], asts => ([], asts)
  | b :: rest, asts =>
      match findLastHit b asts with
      | some j => l1Aux rest (asts.eraseIdx j)
      | none =>
          let p := l1Aux rest asts
          (b :: p.1, p.2)

/-- The level-1 bullet/asteroid collision scan (source lines 350-363):
surviving bullets keep their original order. -/
def level1Collisions (bullets asts : List GO) : List GO × List GO :=
  let p := l1Aux bullets.reverse asts
  (p.1.reverse, p.2)

/-- The state after the level-1 collision scan. -/
def level1Post (s : State) : State :=
  let r := level1Collisions s.bullets s.asteroids
  { s with bullets := r.1, asteroids := r.2 }

/-- The level-1 block of `gameLoop` (source lines 349-379): collisions, then
the cleared-asteroids transition to level 2, else the out-of-ammo lose. -/
def level1Body (s : State) (now : Int) : State :=
  let s1 := level1Post s
  if s1.asteroids.length = 0 then startLevel2 s1 now
  else if s1.bulletsRemaining = 0 ∧ s1.bullets.length = 0 then
    { s1 with gameState := Outcome.lose }
  else s1

/-- Boss movement (source lines 384-398): `movePhase` is
`Math.floor((now - moveStartTime)/3000) % 2` with the JavaScript remainder
(sign of the dividend); during phase 1 the boss moves 2 units toward its
current direction and reverses at the 40-unit margins. -/
def bossMove (b : Boss) (now : Int) : Boss :=
  let movePhase := Int.tmod (Int.fdiv (now - b.moveStartTime) 3000) 2
  if movePhase = 1 then
    if b.movingRight then
      let b2 := { b with x := b.x + 2 }
      if screenW - 40 < b2.x then { b2 with movingRight := false } else b2
    else
      let b2 := { b with x := b.x - 2 }
      if b2.x < 40 then { b2 with movingRight := true } else b2
  else b

/-- Boss shooting (source lines 400-405): strictly more than 2000 ms after
`lastShot`, push one boss bullet at `(boss.x, boss.y + 30)` and set
`lastShot` to the current time. -/
def bossShoot (b : Boss) (bbs : List GO) (now : Int) : Boss × List GO :=
  if 2000 < now - b.lastShot then
    ({ b with lastShot := now }, bbs ++ [mkBullet b.x (b.y + 30) false])
  else (b, bbs)

/-- The inner `bullets.forEach` of the boss-bullet loop (source lines
427-434): every player bullet overlapping the advanced boss bullet `b`
splices `bossBullets` at the fixed outer index `i` and `bullets` at the
current inner index `j`; the counter still advances after a splice, so the
element shifted into the spliced slot is skipped.  `fuel` only bounds the
number of iterations: the body never lengthens `bullets`, so starting it at
`s.bullets.length` runs the loop to completion exactly as the source does. -/
def cancelLoopF : Nat → State → Nat → GO → Nat → State
  | 0, s, _, _, _ => s
  | fuel + 1, s, i, b, j =>
      if h : j < s.bullets.length then
        let pb := s.bullets.get ⟨j, h⟩
        if checkCollision b pb then
          cancelLoopF fuel
            { s with bossBullets := s.bossBullets.eraseIdx i
                   , bullets := s.bullets.eraseIdx j } i b (j + 1)
        else cancelLoopF fuel s i b (j + 1)
      else s

/-- The body of the boss-bullet `forEach` (source lines 408-435) at index
`i`: advance the bullet in place, splice it out when `y > screenH` (the
local reference keeps being used afterwards, exactly as in the source),
then the bullet-hits-player check (whose `return` only leaves this
callback), then the cancellation scan against the player bullets. -/
def visitBossBullet (s : State) (i : Nat) : State :=
  match s.bossBullets[i]? with
  | none => s
  | some b =>
      let b2 := advanceB b
      let bb2 :=
        if screenH < b2.y then (s.bossBullets.set i b2).eraseIdx i
        else s.bossBullets.set i b2
      let s2 : State := { s with bossBullets := bb2 }
      match s.player with
      | some p =>
          if checkCollision b2 p then { s2 with gameState := Outcome.lose }
          else cancelLoopF s.bullets.length s2 i b2 0
      | none => cancelLoopF s.bullets.length s2 i b2 0

/-- The boss-bullet `forEach` (source lines 408-435) as an index loop.
As with `cancelLoopF`, `fuel` only bounds the iteration count; the body
never lengthens `bossBullets`, so `s.bossBullets.length` fuel runs the loop
to completion. -/
def bossBulletsLoopF : Nat → State → Nat → State
  | 0, s, _ => s
  | fuel + 1, s, i =>
      if i < s.bossBullets.length then bossBulletsLoopF fuel (visitBossBullet s i) (i + 1)
      else s

/-- The player-versus-boss check (source lines 437-449): when `usePre` is
true the bounding-box test runs only behind the Manhattan-distance gate
`|dx| + |dy| < 50`, as in the source; with `usePre` false the gate is
dropped.  The result is whether the lose transition fires. -/
def playerBossLose (usePre : Bool) (s : State) : Bool :=
  match s.player, s.boss with
  | some p, some b =>
      (!usePre || decide (|p.x - b.x| + |p.y - b.y| < 50)) && checkCollision p b.toGO
  | _, _ => false

/-- The backward player-bullet-versus-boss loop (source lines 452-468); the
first argument is one more than the next index to visit.  A hit removes the
bullet and decrements the boss hit points; hitting zero reports the win and
stops the scan (the source `return`s out of `gameLoop`). -/
def bulletBossAux : Nat → List GO → Boss → List GO × Boss × Bool
  | 0, bs, boss => (bs, boss, false)
  | idx + 1, bs, boss =>
      if h : idx < bs.length then
        let b := bs.get ⟨idx, h⟩
        if checkCollision b boss.toGO then
          let bs2 := bs.eraseIdx idx
          let boss2 := { boss with hp := boss.hp - 1 }
          if boss2.hp = 0 then (bs2, boss2, true)
          else bulletBossAux idx bs2 boss2
        else bulletBossAux idx bs boss
      else bulletBossAux idx bs boss

/-- The part of the level-2 block after the boss-bullet loop (source lines
437-478): the gated player-versus-boss check with its early `return`, then
the bullet-versus-boss scan with the win transition, then the out-of-ammo
lose check. -/
def level2Tail (usePre : Bool) (s2 : State) : State :=
  if playerBossLose usePre s2 then { s2 with gameState := Outcome.lose }
  else
    match s2.boss with
    | none => s2
    | some boss2 =>
        let r := bulletBossAux s2.bullets.length s2.bullets boss2
        let s3 := { s2 with bullets := r.1, boss := some r.2.1 }
        if r.2.2 then { s3 with gameState := Outcome.win }
        else if s3.bulletsRemaining = 0 ∧ s3.bullets.length = 0 then
          { s3 with gameState := Outcome.lose }
        else s3

/-- The level-2 block of `gameLoop` (source lines 382-478): boss movement,
boss shooting, the boss-bullet loop, then `level2Tail`. -/
def level2Body (usePre : Bool) (s : State) (now : Int) : State :=
  match s.boss with
  | none => s
  | some boss0 =>
      let boss1 := bossMove boss0 now
      let shot := bossShoot boss1 s.bossBullets now
      let s1 := { s with boss := some shot.1, bossBullets := shot.2 }
      level2Tail usePre (bossBulletsLoopF s1.bossBullets.length s1 0)

/-- One invocation of `gameLoop` (source lines 299-479), with the
player-versus-boss pre-filter controlled by `usePre`: no-op outside the two
levels, then the timer with its timeout lose, player movement, the
player-bullet update, and the block of the current level. -/
def tickG (usePre : Bool) (s : State) (now : Int) : State :=
  if s.gameState = Outcome.menu ∨ s.gameState = Outcome.win ∨ s.gameState = Outcome.lose then s
  else
    let s1 := afterTimer s now
    if s1.timeRemaining ≤ 0 then { s1 with gameState := Outcome.lose }
    else
      let s2 := bulletStep (movePlayer s1)
      if s2.gameState = Outcome.level1 then level1Body s2 now
      else level2Body usePre s2 now

/-- The tick exactly as written in the source (pre-filter present). -/
def tick (s : State) (now : Int) : State :=
  tickG true s now

/-- The tick with the Manhattan-distance pre-filter dropped, the variant the
specification asserts to be observably equivalent. -/
def tickNoPre (s : State) (now : Int) : State :=
  tickG false s now

/-- States reachable from the initial record through the operations the
component exposes: key toggles, the fire handler, the START button
(`startLevel1`), the tick, and the BACK-TO-MENU button (`restartGame`).
`startLevel2` is only ever invoked from inside the tick, as in the source. -/
inductive Reachable : State → Prop where
  | init : Reachable initState
  | keys : ∀ {s : State} (l r : Bool), Reachable s → Reachable (setKeys s l r)
  | fireEv : ∀ {s : State}, Reachable s → Reachable (fire s)
  | startL1 : ∀ {s : State} (pos : Fin 5 → ℚ × ℚ) (now : Int),
      Reachable s → Reachable (startLevel1 s pos now)
  | step : ∀ {s : State} (now : Int), Reachable s → Reachable (tick s now)
  | restart : ∀ {s : State}, Reachable s → Reachable (restartGame s)

/-- Nonzero-area bounding-box intersection, written the way the
specification states it: a strictly positive interval overlap on each of
the two axes of the center-anchored boxes. -/
def specNonzeroArea (a b : GO) : Prop :=
  0 < min (a.x + a.width / 2) (b.x + b.width / 2) -
        max (a.x - a.width / 2) (b.x - b.width / 2) ∧
  0 < min (a.y + a.height / 2) (b.y + b.height / 2) -
        max (a.y - a.height / 2) (b.y - b.height / 2)

/-- The player-bullet update the specification describes: advance every
bullet, then remove exactly the bullets whose `y` is below the top edge. -/
def specBulletStep (l : List GO) : List GO :=
  (l.map advanceB).filter fun b => !decide (b.y < 0)

/-- The boss-bullet update the specification describes: advance every boss
bullet, then remove exactly the bullets beyond the bottom edge. -/
def specBossBulletStep (l : List GO) : List GO :=
  (l.map advanceB).filter fun b => !decide (screenH < b.y)

/-- Shape invariant used for the pre-filter equivalence: a live player is
always at `y = 660` with a 30x40 box, and a live boss is always at
`y = 100` with an 80x60 box (their update rules only ever change `x`). -/
def InvPB (s : State) : Prop :=
  (∀ p : GO, s.player = some p → p.y = 660 ∧ p.width = 30 ∧ p.height = 40) ∧
  (∀ b : Boss, s.boss = some b → b.y = 100 ∧ b.width = 80 ∧ b.height = 60)

/-- A lost level-2 session: the boss and a boss bullet are still in the
state record when the START button becomes available again. -/
def stateC2 : State :=
  { player := some mkPlayer
  , bullets := []
  , asteroids := []
  , boss := some (mkBoss 0)
  , bossBullets := [mkBullet 640 130 false]
  , keyLeft := false
  , keyRight := false
  , bulletsRemaining := 3
  , timeRemaining := 20
  , gameState := Outcome.lose
  , lastTime := 5000 }

/-- A level-1 state whose timer is about to run out on a tick that also has
no asteroids left. -/
def stateC3 : State :=
  { initState with gameState := Outcome.level1
                 , player := some mkPlayer
                 , asteroids := []
                 , bulletsRemaining := 0
                 , timeRemaining := 1 / 2
                 , lastTime := 0 }

/-- A level-1 state with no asteroids, no ammunition and no bullets in
flight. -/
def stateC4 : State :=
  { initState with gameState := Outcome.level1
                 , player := some mkPlayer
                 , asteroids := []
                 , bullets := []
                 , bulletsRemaining := 0
                 , timeRemaining := 60
                 , lastTime := 0 }

/-- A state with a live player and ammunition left. -/
def stateC5 : State :=
  { initState with gameState := Outcome.level1
                 , player := some mkPlayer
                 , bulletsRemaining := 3 }

/-- A level-2 state whose boss has never fired (`lastShot = 0`). -/
def stateC6 : State :=
  { player := some mkPlayer
  , bullets := []
  , asteroids := []
  , boss := some (mkBoss 0)
  , bossBullets := []
  , keyLeft := false
  , keyRight := false
  , bulletsRemaining := 10
  , timeRemaining := 60
  , gameState := Outcome.level2
  , lastTime := 1000 }

/-- Two player bullets near the top edge: both would leave the screen on
the next advance. -/
def bulletC7a : GO := mkBullet 100 5 true

/-- Second bullet of the pair used against claim C7. -/
def bulletC7b : GO := mkBullet 200 5 true

/-- A level-2 state with one boss bullet far from the player, used to run
the boss-bullet loop concretely. -/
def stateC7 : State :=
  { initState with gameState := Outcome.level2
                 , player := some mkPlayer
                 , bossBullets := [mkBullet 200 100 false]
                 , bullets := [] }

/-- A bullet overlapping both test asteroids, used for the level-1 scan. -/
def bulletC9 : GO := mkBullet 100 100 true

/-- First test asteroid for the level-1 scan. -/
def asteroidC9a : GO := mkAsteroid 100 100

/-- Second test asteroid for the level-1 scan; it has the higher index, so
the backward scan finds it first. -/
def asteroidC9b : GO := mkAsteroid 110 110

/-- A lost session that still has a player and ammunition. -/
def stateC10 : State :=
  { initState with gameState := Outcome.lose
                 , player := some mkPlayer
                 , bulletsRemaining := 4 }

theorem checkCollision_eq_true_iff (a b : GO) :
    checkCollision a b = true ↔
      a.x - a.width / 2 < b.x + b.width / 2 ∧
      a.x + a.width / 2 > b.x - b.width / 2 ∧
      a.y - a.height / 2 < b.y + b.height / 2 ∧
      a.y + a.height / 2 > b.y - b.height / 2 := by
  simp [checkCollision, and_assoc]

theorem movePlayer_fields (s : State) :
    (movePlayer s).bullets = s.bullets ∧
    (movePlayer s).asteroids = s.asteroids ∧
    (movePlayer s).boss = s.boss ∧
    (movePlayer s).bossBullets = s.bossBullets ∧
    (movePlayer s).bulletsRemaining = s.bulletsRemaining ∧
    (movePlayer s).timeRemaining = s.timeRemaining ∧
    (movePlayer s).gameState = s.gameState ∧
    (movePlayer s).lastTime = s.lastTime := by
  unfold movePlayer
  cases s.player <;> simp

theorem movePlayer_player_shape (s : State) (p : GO) (h : s.player = some p) :
    ∃ x2 : ℚ, (movePlayer s).player = some { p with x := x2 } := by
  unfold movePlayer
  rw [h]
  dsimp only
  split <;> split <;> exact ⟨_, rfl⟩

theorem movePlayer_player_none (s : State) (h : s.player = none) :
    (movePlayer s).player = none := by
  unfold movePlayer
  rw [h]
  exact h

/-- C1: the collision test is a pure symmetric function of the two boxes; it
returns true exactly when the center distances are below the half-size sums
on both axes, and (for boxes of positive size) exactly when the boxes have a
nonzero-area intersection — so non-overlapping pairs and boundary-touching
(zero-area) pairs yield false. -/
theorem c1_collision (a b : GO) :
    checkCollision a b = checkCollision b a ∧
    (checkCollision a b = true ↔
      |a.x - b.x| < (a.width + b.width) / 2 ∧ |a.y - b.y| < (a.height + b.height) / 2) ∧
    (0 < a.width → 0 < b.width → 0 < a.height → 0 < b.height →
      (checkCollision a b = true ↔ specNonzeroArea a b)) := by
  refine ⟨?_, ?_, ?_⟩
  · rw [Bool.eq_iff_iff, checkCollision_eq_true_iff, checkCollision_eq_true_iff]
    constructor <;> rintro ⟨h1, h2, h3, h4⟩ <;>
      exact ⟨by linarith, by linarith, by linarith, by linarith⟩
  · rw [checkCollision_eq_true_iff, abs_sub_lt_iff, abs_sub_lt_iff]
    constructor
    · rintro ⟨h1, h2, h3, h4⟩
      exact ⟨⟨by linarith, by linarith⟩, by linarith, by linarith⟩
    · rintro ⟨⟨h1, h2⟩, h3, h4⟩
      exact ⟨by linarith, by linarith, by linarith, by linarith⟩
  · intro hw1 hw2 hh1 hh2
    rw [checkCollision_eq_true_iff]
    unfold specNonzeroArea
    constructor
    · rintro ⟨h1, h2, h3, h4⟩
      constructor <;> rw [sub_pos, max_lt_iff, lt_min_iff, lt_min_iff]
      · exact ⟨⟨by linarith, by linarith⟩, by linarith, by linarith⟩
      · exact ⟨⟨by linarith, by linarith⟩, by linarith, by linarith⟩
    · rintro ⟨hx, hy⟩
      rw [sub_pos, max_lt_iff, lt_min_iff, lt_min_iff] at hx hy
      obtain ⟨⟨_, hx1⟩, hx2, _⟩ := hx
      obtain ⟨⟨_, hy1⟩, hy2, _⟩ := hy
      exact ⟨by linarith, by linarith, by linarith, by linarith⟩

theorem c1_collision_witness :
    checkCollision mkPlayer (mkAsteroid 650 650) = true ↔
      specNonzeroArea mkPlayer (mkAsteroid 650 650) :=
  (c1_collision mkPlayer (mkAsteroid 650 650)).2.2
    (by with_unfolding_all decide) (by with_unfolding_all decide)
    (by with_unfolding_all decide) (by with_unfolding_all decide)

/-- C2 counterexample: starting level one from a lost level-2 session does
not clear the boss or the boss bullets — `startLevel1` never writes those
fields, contradicting the claim that it clears all entity collections. -/
theorem c2_counterexample :
    (startLevel1 stateC2 (fun _ => (100, 100)) 6000).boss = some (mkBoss 0) ∧
    (startLevel1 stateC2 (fun _ => (100, 100)) 6000).bossBullets = [mkBullet 640 130 false] :=
  ⟨rfl, rfl⟩

/-- C2 as amended: `startLevel1` clears the player bullets, replaces the
asteroid collection with exactly 5 fresh asteroids, creates one player
entity, resets bullets-remaining to 10 and time-remaining to 60, and sets
the outcome to level-one — but it leaves the boss and the boss-bullet
collection exactly as they were. -/
theorem c2_startLevel1 (s : State) (pos : Fin 5 → ℚ × ℚ) (now : Int) :
    (startLevel1 s pos now).asteroids.length = 5 ∧
    (startLevel1 s pos now).player = some mkPlayer ∧
    (startLevel1 s pos now).bullets = [] ∧
    (startLevel1 s pos now).bulletsRemaining = 10 ∧
    (startLevel1 s pos now).timeRemaining = 60 ∧
    (startLevel1 s pos now).gameState = Outcome.level1 ∧
    (startLevel1 s pos now).boss = s.boss ∧
    (startLevel1 s pos now).bossBullets = s.bossBullets := by
  refine ⟨?_, rfl, rfl, rfl, rfl, rfl, rfl, rfl⟩
  simp [startLevel1, mkAsteroids]

/-- C3: whenever a tick of an active level drives the timer to zero or
below, the whole tick is the timer update plus the transition to `lose`:
every entity collection and counter is otherwise untouched, so no other
outcome transition can fire on that tick. -/
theorem c3_timeout (s : State) (now : Int)
    (hAct : s.gameState = Outcome.level1 ∨ s.gameState = Outcome.level2)
    (hT : (afterTimer s now).timeRemaining ≤ 0) :
    tick s now = { afterTimer s now with gameState := Outcome.lose } := by
  have hg : ¬(s.gameState = Outcome.menu ∨ s.gameState = Outcome.win ∨
      s.gameState = Outcome.lose) := by
    rcases hAct with h | h <;> simp [h]
  simp only [tick, tickG]
  rw [if_neg hg, if_pos hT]

theorem c3_timeout_witness :
    tick stateC3 1000 = { afterTimer stateC3 1000 with gameState := Outcome.lose } ∧
    stateC3.asteroids = [] ∧ (tick stateC3 1000).gameState = Outcome.lose := by
  refine ⟨c3_timeout stateC3 1000 (Or.inl rfl) (by with_unfolding_all decide), rfl, ?_⟩
  rw [c3_timeout stateC3 1000 (Or.inl rfl) (by with_unfolding_all decide)]

/-- C4: on a level-one tick that survives the timer, if the collision scan
leaves no asteroids then the tick is exactly `startLevel2` applied to the
post-scan state — no ammunition condition is consulted; and when asteroids
do remain, the tick ends in the out-of-ammo check. -/
theorem c4_cleared (s : State) (now : Int)
    (h1 : s.gameState = Outcome.level1)
    (h2 : ¬(afterTimer s now).timeRemaining ≤ 0) :
    ((level1Post (bulletStep (movePlayer (afterTimer s now)))).asteroids = [] →
      tick s now = startLevel2 (level1Post (bulletStep (movePlayer (afterTimer s now)))) now ∧
      (tick s now).gameState = Outcome.level2) ∧
    ((level1Post (bulletStep (movePlayer (afterTimer s now)))).asteroids ≠ [] →
      tick s now =
        if (level1Post (bulletStep (movePlayer (afterTimer s now)))).bulletsRemaining = 0 ∧
            (level1Post (bulletStep (movePlayer (afterTimer s now)))).bullets.length = 0 then
          { level1Post (bulletStep (movePlayer (afterTimer s now))) with
              gameState := Outcome.lose }
        else level1Post (bulletStep (movePlayer (afterTimer s now)))) := by
  have hg : ¬(s.gameState = Outcome.menu ∨ s.gameState = Outcome.win ∨
      s.gameState = Outcome.lose) := by simp [h1]
  have hgs2 : (bulletStep (movePlayer (afterTimer s now))).gameState = Outcome.level1 := by
    have hmp := (movePlayer_fields (afterTimer s now)).2.2.2.2.2.2.1
    have hat : (afterTimer s now).gameState = Outcome.level1 := by
      simp [afterTimer, h1]
    simp [bulletStep, hmp, hat]
  have htick : tick s now = level1Body (bulletStep (movePlayer (afterTimer s now))) now := by
    simp only [tick, tickG]
    rw [if_neg hg, if_neg h2, if_pos hgs2]
  constructor
  · intro hA
    have hlen : (level1Post (bulletStep (movePlayer (afterTimer s now)))).asteroids.length = 0 := by
      rw [hA]; rfl
    rw [htick]
    unfold level1Body
    rw [if_pos hlen]
    exact ⟨rfl, rfl⟩
  · intro hA
    have hlen : ¬(level1Post (bulletStep (movePlayer (afterTimer s now)))).asteroids.length = 0 := by
      simpa [List.length_eq_zero] using hA
    rw [htick]
    unfold level1Body
    rw [if_neg hlen]

theorem c4_cleared_witness :
    tick stateC4 16 = startLevel2 (level1Post (bulletStep (movePlayer (afterTimer stateC4 16)))) 16 ∧
    (tick stateC4 16).gameState = Outcome.level2 ∧ stateC4.bulletsRemaining = 0 :=
  ⟨((c4_cleared stateC4 16 rfl (by with_unfolding_all decide)).1
      (by with_unfolding_all decide)).1,
   ((c4_cleared stateC4 16 rfl (by with_unfolding_all decide)).1
      (by with_unfolding_all decide)).2,
   rfl⟩

theorem cancelLoopF_shape (fuel : Nat) :
    ∀ (s : State) (i : Nat) (b : GO) (j : Nat),
      ∃ bb bl, cancelLoopF fuel s i b j = { s with bossBullets := bb, bullets := bl } := by
  induction fuel with
  | zero =>
      intro s i b j
      exact ⟨s.bossBullets, s.bullets, rfl⟩
  | succ n ih =>
      intro s i b j
      simp only [cancelLoopF]
      split
      · split
        · obtain ⟨bb, bl, h⟩ := ih
            { s with bossBullets := s.bossBullets.eraseIdx i
                   , bullets := s.bullets.eraseIdx j } i b (j + 1)
          exact ⟨bb, bl, h.trans rfl⟩
        · exact ih s i b (j + 1)
      · exact ⟨s.bossBullets, s.bullets, rfl⟩

theorem visitBossBullet_shape (s : State) (i : Nat) :
    ∃ bb bl gs, visitBossBullet s i = { s with bossBullets := bb, bullets := bl, gameState := gs } := by
  unfold visitBossBullet
  cases hbi : s.bossBullets[i]? with
  | none => exact ⟨s.bossBullets, s.bullets, s.gameState, rfl⟩
  | some b =>
      dsimp only
      set t : State :=
        { s with bossBullets :=
            if screenH < (advanceB b).y then (s.bossBullets.set i (advanceB b)).eraseIdx i
            else s.bossBullets.set i (advanceB b) } with ht
      cases hp : s.player with
      | none =>
          dsimp only
          obtain ⟨bb, bl, h⟩ := cancelLoopF_shape s.bullets.length t i (advanceB b) 0
          refine ⟨bb, bl, s.gameState, ?_⟩
          rw [h, ht]
          simp [hp]
      | some p =>
          dsimp only
          cases hc : checkCollision (advanceB b) p with
          | true =>
              refine ⟨if screenH < (advanceB b).y then (s.bossBullets.set i (advanceB b)).eraseIdx i
                  else s.bossBullets.set i (advanceB b), s.bullets, Outcome.lose, ?_⟩
              rw [if_pos rfl]
          | false =>
              obtain ⟨bb, bl, h⟩ := cancelLoopF_shape s.bullets.length t i (advanceB b) 0
              refine ⟨bb, bl, s.gameState, ?_⟩
              rw [if_neg (by simp : ¬(false = true)), h, ht]
              simp [hp]

theorem bossBulletsLoopF_shape (fuel : Nat) :
    ∀ (s : State) (i : Nat),
      ∃ bb bl gs, bossBulletsLoopF fuel s i = { s with bossBullets := bb, bullets := bl, gameState := gs } := by
  induction fuel with
  | zero =>
      intro s i
      exact ⟨s.bossBullets, s.bullets, s.gameState, rfl⟩
  | succ n ih =>
      intro s i
      simp only [bossBulletsLoopF]
      split
      · obtain ⟨bb1, bl1, gs1, h1⟩ := visitBossBullet_shape s i
        obtain ⟨bb2, bl2, gs2, h2⟩ := ih (visitBossBullet s i) (i + 1)
        rw [h2, h1]
        exact ⟨bb2, bl2, gs2, rfl⟩
      · exact ⟨s.bossBullets, s.bullets, s.gameState, rfl⟩

theorem bulletBossAux_shape (idx : Nat) :
    ∀ (bs : List GO) (boss : Boss),
      ∃ (bs2 : List GO) (hp2 : Int) (w : Bool),
        bulletBossAux idx bs boss = (bs2, { boss with hp := hp2 }, w) := by
  induction idx with
  | zero =>
      intro bs boss
      exact ⟨bs, boss.hp, false, rfl⟩
  | succ n ih =>
      intro bs boss
      simp only [bulletBossAux]
      split
      · split
        · split
          · exact ⟨_, _, _, rfl⟩
          · obtain ⟨bs2, hp2, w, h⟩ := ih (bs.eraseIdx n) { boss with hp := boss.hp - 1 }
            exact ⟨bs2, hp2, w, h.trans rfl⟩
        · exact ih bs boss
      · exact ih bs boss

theorem bossMove_fields (b : Boss) (now : Int) :
    (bossMove b now).y = b.y ∧ (bossMove b now).width = b.width ∧
    (bossMove b now).height = b.height ∧ (bossMove b now).lastShot = b.lastShot ∧
    (bossMove b now).hp = b.hp := by
  unfold bossMove
  dsimp only
  split
  · split <;> split <;> exact ⟨rfl, rfl, rfl, rfl, rfl⟩
  · exact ⟨rfl, rfl, rfl, rfl, rfl⟩

theorem bossShoot_fst_fields (b : Boss) (bbs : List GO) (now : Int) :
    (bossShoot b bbs now).1.y = b.y ∧ (bossShoot b bbs now).1.width = b.width ∧
    (bossShoot b bbs now).1.height = b.height ∧ (bossShoot b bbs now).1.x = b.x := by
  unfold bossShoot
  split <;> exact ⟨rfl, rfl, rfl, rfl⟩

theorem level2Tail_shape (u : Bool) (s2 : State) :
    ∃ bl gs obs,
      level2Tail u s2 = { s2 with bullets := bl, gameState := gs, boss := obs } ∧
      (obs = s2.boss ∨ ∃ (b2 : Boss) (hp2 : Int), s2.boss = some b2 ∧ obs = some { b2 with hp := hp2 }) := by
  unfold level2Tail
  split
  · exact ⟨s2.bullets, Outcome.lose, s2.boss, rfl, Or.inl rfl⟩
  · split
    · exact ⟨s2.bullets, s2.gameState, s2.boss, rfl, Or.inl rfl⟩
    · next boss2 hb =>
      obtain ⟨bs2, hp2, w, h⟩ := bulletBossAux_shape s2.bullets.length s2.bullets boss2
      rw [h]
      dsimp only
      split
      · exact ⟨bs2, Outcome.win, some { boss2 with hp := hp2 }, rfl, Or.inr ⟨boss2, hp2, hb, rfl⟩⟩
      · split
        · exact ⟨bs2, Outcome.lose, some { boss2 with hp := hp2 }, rfl, Or.inr ⟨boss2, hp2, hb, rfl⟩⟩
        · exact ⟨bs2, s2.gameState, some { boss2 with hp := hp2 }, rfl, Or.inr ⟨boss2, hp2, hb, rfl⟩⟩

theorem loopTail_fields (u : Bool) (t : State) :
    (level2Tail u (bossBulletsLoopF t.bossBullets.length t 0)).player = t.player ∧
    (level2Tail u (bossBulletsLoopF t.bossBullets.length t 0)).bulletsRemaining = t.bulletsRemaining ∧
    ((level2Tail u (bossBulletsLoopF t.bossBullets.length t 0)).boss = t.boss ∨
      ∃ (b2 : Boss) (hp2 : Int), t.boss = some b2 ∧
        (level2Tail u (bossBulletsLoopF t.bossBullets.length t 0)).boss = some { b2 with hp := hp2 }) := by
  obtain ⟨bb, bl, gs, hLoop⟩ := bossBulletsLoopF_shape t.bossBullets.length t 0
  obtain ⟨bl2, gs2, obs, hTail, hObs⟩ :=
    level2Tail_shape u (bossBulletsLoopF t.bossBullets.length t 0)
  rw [hTail]
  refine ⟨by rw [hLoop], by rw [hLoop], ?_⟩
  rcases hObs with hSame | ⟨b2, hp2, hEq, hOut⟩
  · left
    rw [hSame, hLoop]
  · right
    rw [hLoop] at hEq
    exact ⟨b2, hp2, hEq, by rw [hOut]⟩

theorem level2Body_player (u : Bool) (s : State) (now : Int) :
    (level2Body u s now).player = s.player ∧
    (level2Body u s now).bulletsRemaining = s.bulletsRemaining := by
  unfold level2Body
  split
  · exact ⟨rfl, rfl⟩
  · exact ⟨((loopTail_fields u _).1).trans rfl, ((loopTail_fields u _).2.1).trans rfl⟩

theorem level2Body_invPB (u : Bool) (s : State) (now : Int) (h : InvPB s) :
    InvPB (level2Body u s now) := by
  constructor
  · intro p hp
    rw [(level2Body_player u s now).1] at hp
    exact h.1 p hp
  · intro b' hb'
    revert hb'
    unfold level2Body
    split
    · next hbn => rw [hbn]; intro hb'; exact absurd hb' (by simp)
    · next boss0 hb =>
      intro hb'
      obtain ⟨mvy, mvw, mvh, hml, hmh⟩ := bossMove_fields boss0 now
      obtain ⟨shy, shw, shh, shx⟩ := bossShoot_fst_fields (bossMove boss0 now) s.bossBullets now
      obtain ⟨hb0y, hb0w, hb0h⟩ := h.2 boss0 hb
      have hLT := (loopTail_fields u
        { s with boss := some (bossShoot (bossMove boss0 now) s.bossBullets now).1
               , bossBullets := (bossShoot (bossMove boss0 now) s.bossBullets now).2 }).2.2
      rcases hLT with hSame | ⟨b2, hp2, hEq, hOut⟩
      · rw [hSame] at hb'
        have hb2 : some (bossShoot (bossMove boss0 now) s.bossBullets now).1 = some b' := hb'
        have hbe := Option.some_injective _ hb2
        rw [← hbe, shy, shw, shh, mvy, mvw, mvh]
        exact ⟨hb0y, hb0w, hb0h⟩
      · rw [hOut] at hb'
        have hbe := Option.some_injective _ hb'
        have hEq2 : some (bossShoot (bossMove boss0 now) s.bossBullets now).1 = some b2 := hEq
        have hb2 := Option.some_injective _ hEq2
        rw [← hbe]
        dsimp only
        rw [← hb2, shy, shw, shh, mvy, mvw, mvh]
        exact ⟨hb0y, hb0w, hb0h⟩

theorem fire_shape (s : State) :
    fire s = s ∨
    ∃ p : GO, s.player = some p ∧ 0 < s.bulletsRemaining ∧
      fire s = { s with bullets := s.bullets ++ [mkBullet p.x (p.y - 20) true]
                      , bulletsRemaining := s.bulletsRemaining - 1 } := by
  unfold fire
  cases hp : s.player with
  | none => exact Or.inl rfl
  | some p =>
      dsimp only
      by_cases hn : 0 < s.bulletsRemaining
      · exact Or.inr ⟨p, rfl, hn, by rw [if_pos hn]⟩
      · exact Or.inl (by rw [if_neg hn])

theorem movePlayer_isSome (s : State) : (movePlayer s).player.isSome = s.player.isSome := by
  cases hp : s.player with
  | none => rw [movePlayer_player_none s hp]
  | some p =>
      obtain ⟨x2, hx⟩ := movePlayer_player_shape s p hp
      rw [hx]
      rfl

theorem invPB_movePlayer (s : State) (h : InvPB s) : InvPB (movePlayer s) := by
  constructor
  · intro p' hp'
    cases hp : s.player with
    | none =>
        rw [movePlayer_player_none s hp] at hp'
        exact absurd hp' (by simp)
    | some p =>
        obtain ⟨x2, hx⟩ := movePlayer_player_shape s p hp
        rw [hx] at hp'
        rw [← Option.some_injective _ hp']
        exact h.1 p hp
  · intro b hb
    rw [(movePlayer_fields s).2.2.1] at hb
    exact h.2 b hb

theorem invPB_startLevel2 (s : State) (now : Int) : InvPB (startLevel2 s now) := by
  constructor
  · intro p hp
    have hp' : some mkPlayer = some p := hp
    rw [← Option.some_injective _ hp']
    exact ⟨rfl, rfl, rfl⟩
  · intro b hb
    have hb' : some (mkBoss now) = some b := hb
    rw [← Option.some_injective _ hb']
    exact ⟨rfl, rfl, rfl⟩

theorem level1Body_cases (s : State) (now : Int) :
    level1Body s now = startLevel2 (level1Post s) now ∨
    level1Body s now = { level1Post s with gameState := Outcome.lose } ∨
    level1Body s now = level1Post s := by
  simp only [level1Body]
  split
  · exact Or.inl rfl
  · split
    · exact Or.inr (Or.inl rfl)
    · exact Or.inr (Or.inr rfl)

theorem tickG_cases (u : Bool) (s : State) (now : Int) :
    tickG u s now = s ∨
    tickG u s now = { afterTimer s now with gameState := Outcome.lose } ∨
    tickG u s now = level1Body (bulletStep (movePlayer (afterTimer s now))) now ∨
    tickG u s now = level2Body u (bulletStep (movePlayer (afterTimer s now))) now := by
  simp only [tickG]
  split
  · exact Or.inl rfl
  · split
    · exact Or.inr (Or.inl rfl)
    · split
      · exact Or.inr (Or.inr (Or.inl rfl))
      · exact Or.inr (Or.inr (Or.inr rfl))

theorem invPB_level1Body (s : State) (now : Int) (h : InvPB s) : InvPB (level1Body s now) := by
  rcases level1Body_cases s now with h1 | h1 | h1 <;> rw [h1]
  · exact invPB_startLevel2 _ now
  · exact ⟨fun p hp => h.1 p hp, fun b hb => h.2 b hb⟩
  · exact ⟨fun p hp => h.1 p hp, fun b hb => h.2 b hb⟩

theorem tick_invPB (s : State) (now : Int) (h : InvPB s) : InvPB (tick s now) := by
  rcases tickG_cases true s now with h1 | h1 | h1 | h1 <;> rw [tick, h1]
  · exact h
  · exact ⟨fun p hp => h.1 p hp, fun b hb => h.2 b hb⟩
  · exact invPB_level1Body (bulletStep (movePlayer (afterTimer s now))) now
      (invPB_movePlayer (afterTimer s now) ⟨fun p hp => h.1 p hp, fun b hb => h.2 b hb⟩)
  · exact level2Body_invPB true (bulletStep (movePlayer (afterTimer s now))) now
      (invPB_movePlayer (afterTimer s now) ⟨fun p hp => h.1 p hp, fun b hb => h.2 b hb⟩)

theorem tick_ammo (s : State) (now : Int) (h : 0 ≤ s.bulletsRemaining) :
    0 ≤ (tick s now).bulletsRemaining := by
  have hXammo : (bulletStep (movePlayer (afterTimer s now))).bulletsRemaining = s.bulletsRemaining := by
    have := (movePlayer_fields (afterTimer s now)).2.2.2.2.1
    simpa [bulletStep, afterTimer] using this
  rcases tickG_cases true s now with h1 | h1 | h1 | h1 <;> rw [tick, h1]
  · exact h
  · exact h
  · rcases level1Body_cases (bulletStep (movePlayer (afterTimer s now))) now with h2 | h2 | h2 <;> rw [h2]
    · exact (by decide : (0:Int) ≤ 10)
    · show 0 ≤ (bulletStep (movePlayer (afterTimer s now))).bulletsRemaining
      rw [hXammo]
      exact h
    · show 0 ≤ (bulletStep (movePlayer (afterTimer s now))).bulletsRemaining
      rw [hXammo]
      exact h
  · rw [(level2Body_player true (bulletStep (movePlayer (afterTimer s now))) now).2, hXammo]
    exact h

theorem tick_player_isSome (s : State) (now : Int) (h : s.player.isSome = true) :
    (tick s now).player.isSome = true := by
  have hX : (bulletStep (movePlayer (afterTimer s now))).player.isSome = true := by
    show (movePlayer (afterTimer s now)).player.isSome = true
    rw [movePlayer_isSome]
    exact h
  rcases tickG_cases true s now with h1 | h1 | h1 | h1 <;> rw [tick, h1]
  · exact h
  · exact h
  · rcases level1Body_cases (bulletStep (movePlayer (afterTimer s now))) now with h2 | h2 | h2 <;> rw [h2]
    · rfl
    · exact hX
    · exact hX
  · rw [(level2Body_player true (bulletStep (movePlayer (afterTimer s now))) now).1]
    exact hX

theorem reachable_inv (s : State) (h : Reachable s) :
    InvPB s ∧ 0 ≤ s.bulletsRemaining := by
  induction h with
  | init =>
      refine ⟨⟨?_, ?_⟩, by decide⟩
      · intro p hp
        exact absurd hp (by simp [initState])
      · intro b hb
        exact absurd hb (by simp [initState])
  | keys l r hR ih => exact ih
  | @fireEv s hR ih =>
      rcases fire_shape s with h1 | ⟨p, hp, hn, h1⟩ <;> rw [h1]
      · exact ih
      · refine ⟨⟨fun q hq => ih.1.1 q hq, fun b hb => ih.1.2 b hb⟩, ?_⟩
        show 0 ≤ s.bulletsRemaining - 1
        omega
  | startL1 pos now hR ih =>
      refine ⟨⟨?_, fun b hb => ih.1.2 b hb⟩, by show (0:Int) ≤ 10; decide⟩
      intro p hp
      have hp' : some mkPlayer = some p := hp
      rw [← Option.some_injective _ hp']
      exact ⟨rfl, rfl, rfl⟩
  | step now hR ih => exact ⟨tick_invPB _ now ih.1, tick_ammo _ now ih.2⟩
  | restart hR ih =>
      refine ⟨⟨?_, ?_⟩, ih.2⟩
      · intro p hp
        exact absurd hp (by simp [restartGame])
      · intro b hb
        exact absurd hb (by simp [restartGame])

theorem playerBossLose_false (u : Bool) (s : State) (h : InvPB s) :
    playerBossLose u s = false := by
  unfold playerBossLose
  cases hp : s.player with
  | none => cases s.boss <;> rfl
  | some p =>
      cases hb : s.boss with
      | none => rfl
      | some b =>
          dsimp only
          obtain ⟨hpy, hpw, hph⟩ := h.1 p hp
          obtain ⟨hby, hbw, hbh⟩ := h.2 b hb
          have hcc : checkCollision p b.toGO = false := by
            rw [Bool.eq_false_iff]
            intro hcon
            rw [checkCollision_eq_true_iff] at hcon
            obtain ⟨_, _, h3, _⟩ := hcon
            have hty : b.toGO.y = b.y := rfl
            have hth : b.toGO.height = b.height := rfl
            rw [hpy, hph, hty, hth, hby, hbh] at h3
            norm_num at h3
          rw [hcc]
          simp

theorem invPB_loopF (t : State) (h : InvPB t) :
    InvPB (bossBulletsLoopF t.bossBullets.length t 0) := by
  obtain ⟨bb, bl, gs, hLoop⟩ := bossBulletsLoopF_shape t.bossBullets.length t 0
  rw [hLoop]
  exact ⟨fun p hp => h.1 p hp, fun b hb => h.2 b hb⟩

theorem level2Tail_usePre (s2 : State) (h : InvPB s2) :
    level2Tail true s2 = level2Tail false s2 := by
  unfold level2Tail
  rw [playerBossLose_false true s2 h, playerBossLose_false false s2 h]

theorem level2Body_usePre (s : State) (now : Int) (h : InvPB s) :
    level2Body true s now = level2Body false s now := by
  unfold level2Body
  split
  · rfl
  · next boss0 hb =>
    apply level2Tail_usePre
    apply invPB_loopF
    constructor
    · intro p hp
      exact h.1 p hp
    · intro b hbb
      have hbb' : some (bossShoot (bossMove boss0 now) s.bossBullets now).1 = some b := hbb
      rw [← Option.some_injective _ hbb']
      obtain ⟨shy, shw, shh, _⟩ := bossShoot_fst_fields (bossMove boss0 now) s.bossBullets now
      obtain ⟨mvy, mvw, mvh, _, _⟩ := bossMove_fields boss0 now
      rw [shy, shw, shh, mvy, mvw, mvh]
      exact h.2 boss0 hb

theorem tickG_usePre (s : State) (now : Int) (h : InvPB s) :
    tickG true s now = tickG false s now := by
  simp only [tickG]
  split
  · rfl
  · split
    · rfl
    · split
      · rfl
      · exact level2Body_usePre (bulletStep (movePlayer (afterTimer s now))) now
          (invPB_movePlayer (afterTimer s now) ⟨fun p hp => h.1 p hp, fun b hb => h.2 b hb⟩)

/-- C5 counterexample: in the initial state (menu, no player yet) the ammo
counter is positive, yet a fire event is a no-op because no player object
exists — the claim ties the no-op exclusively to ammo reaching zero. -/
theorem c5_counterexample :
    0 < initState.bulletsRemaining ∧ initState.player = none ∧ fire initState = initState :=
  ⟨by decide, rfl, rfl⟩

/-- C5 as amended: a fire event spawns exactly one bullet 20 units above the
player and decrements bullets-remaining by exactly one when bullets-remaining
is positive and a player entity exists; it is a no-op both when
bullets-remaining is zero or less and when no player exists; and
bullets-remaining is never negative in any reachable state. -/
theorem c5_fire :
    (∀ s : State, s.bulletsRemaining ≤ 0 → fire s = s) ∧
    (∀ s : State, s.player = none → fire s = s) ∧
    (∀ (s : State) (p : GO), s.player = some p → 0 < s.bulletsRemaining →
      fire s = { s with bullets := s.bullets ++ [mkBullet p.x (p.y - 20) true]
                      , bulletsRemaining := s.bulletsRemaining - 1 }) ∧
    (∀ s : State, Reachable s → 0 ≤ s.bulletsRemaining) := by
  refine ⟨?_, ?_, ?_, fun s hR => (reachable_inv s hR).2⟩
  · intro s hle
    unfold fire
    cases hp : s.player with
    | none => rfl
    | some p =>
        dsimp only
        rw [if_neg (by omega)]
  · intro s hp
    unfold fire
    rw [hp]
  · intro s p hp hn
    unfold fire
    rw [hp]
    dsimp only
    rw [if_pos hn]

theorem c5_fire_witness :
    fire stateC5 = { stateC5 with
        bullets := stateC5.bullets ++ [mkBullet mkPlayer.x (mkPlayer.y - 20) true]
      , bulletsRemaining := stateC5.bulletsRemaining - 1 } ∧
    0 ≤ initState.bulletsRemaining :=
  ⟨c5_fire.2.2.1 stateC5 mkPlayer rfl (by decide),
   c5_fire.2.2.2 initState Reachable.init⟩

/-- C8: on every reachable state the tick with the Manhattan-distance
pre-filter equals the tick that always runs the full bounding-box test:
a live player is always at `y = 660` and a live boss at `y = 100`, so the
pre-filter (gate at distance 50) and the full test (which needs `|dy| < 50`)
both always reject, and the pre-filter is behaviorally neutral. -/
theorem c8_prefilter (s : State) (hR : Reachable s) (now : Int) :
    tick s now = tickNoPre s now := by
  unfold tick tickNoPre
  exact tickG_usePre s now (reachable_inv s hR).1

theorem c8_prefilter_witness : tick initState 16 = tickNoPre initState 16 :=
  c8_prefilter initState Reachable.init 16

/-- C10: firing is not gated on the outcome: the tick never drops the player
reference (even on a tick transitioning to `win` or `lose`), and in a `win`
or `lose` state a fire event with ammunition left still appends one bullet
and decrements the counter, exactly as during play. -/
theorem c10_fire_ungated :
    (∀ (s : State) (now : Int), s.player.isSome = true → (tick s now).player.isSome = true) ∧
    (∀ (s : State) (p : GO), s.gameState = Outcome.win ∨ s.gameState = Outcome.lose →
      s.player = some p → 0 < s.bulletsRemaining →
      fire s = { s with bullets := s.bullets ++ [mkBullet p.x (p.y - 20) true]
                      , bulletsRemaining := s.bulletsRemaining - 1 }) := by
  constructor
  · exact fun s now h => tick_player_isSome s now h
  · intro s p hend hp hn
    unfold fire
    rw [hp]
    dsimp only
    rw [if_pos hn]

theorem c10_fire_ungated_witness :
    fire stateC10 = { stateC10 with
        bullets := stateC10.bullets ++ [mkBullet mkPlayer.x (mkPlayer.y - 20) true]
      , bulletsRemaining := stateC10.bulletsRemaining - 1 } :=
  c10_fire_ungated.2 stateC10 mkPlayer (Or.inr rfl) rfl (by decide)

/-- C6 counterexample: in a level-2 state whose boss has `lastShot = 0`, the
tick at time 2000 — exactly 2000ms elapsed — spawns no boss bullet, because
the source condition is strictly `now - lastShot > 2000`; the claim includes
the boundary case "exactly 2000ms". -/
theorem c6_counterexample :
    (2000 : Int) - (mkBoss 0).lastShot = 2000 ∧ stateC6.boss = some (mkBoss 0) ∧
    (tick stateC6 2000).bossBullets = [] ∧ (tick stateC6 2000).gameState = Outcome.level2 := by
  refine ⟨by decide, rfl, ?_, ?_⟩ <;> with_unfolding_all decide

/-- C6 as amended: the boss fires exactly when strictly more than 2000ms have
elapsed since its last shot — then exactly one boss bullet is appended at
`(boss.x, boss.y + 30)` and the last-shot timestamp is reset to the current
time; at 2000ms or less (including exactly 2000ms) nothing is spawned and
the timestamp is unchanged. -/
theorem c6_bossShoot (b : Boss) (bbs : List GO) (now : Int) :
    (2000 < now - b.lastShot →
      bossShoot b bbs now =
        ({ b with lastShot := now }, bbs ++ [mkBullet b.x (b.y + 30) false])) ∧
    (now - b.lastShot ≤ 2000 → bossShoot b bbs now = (b, bbs)) ∧
    (bossShoot b bbs now).2.length =
      bbs.length + (if 2000 < now - b.lastShot then 1 else 0) := by
  refine ⟨?_, ?_, ?_⟩
  · intro h
    unfold bossShoot
    rw [if_pos h]
  · intro h
    unfold bossShoot
    rw [if_neg (by omega)]
  · unfold bossShoot
    split <;> simp

theorem c6_bossShoot_witness :
    bossShoot (mkBoss 0) [] 2001 =
      ({ mkBoss 0 with lastShot := 2001 }, [] ++ [mkBullet (mkBoss 0).x ((mkBoss 0).y + 30) false]) ∧
    bossShoot (mkBoss 0) [] 2000 = (mkBoss 0, []) :=
  ⟨(c6_bossShoot (mkBoss 0) [] 2001).1 (by decide),
   (c6_bossShoot (mkBoss 0) [] 2000).2.1 (by decide)⟩

theorem findLastHit_none_iff (b : GO) (asts : List GO) :
    findLastHit b asts = none ↔ ∀ a ∈ asts, checkCollision b a = false := by
  induction asts with
  | nil => simp [findLastHit]
  | cons a rest ih =>
      cases hr : findLastHit b rest with
      | some j =>
          simp only [findLastHit, hr]
          constructor
          · intro h
            simp at h
          · intro hall
            have hnone := ih.mpr fun x hx => hall x (List.mem_cons_of_mem a hx)
            rw [hr] at hnone
            simp at hnone
      | none =>
          simp only [findLastHit, hr]
          by_cases hcol : checkCollision b a = true
          · rw [if_pos hcol]
            constructor
            · intro h
              simp at h
            · intro hall
              have := hall a (List.mem_cons_self a rest)
              rw [hcol] at this
              simp at this
          · rw [if_neg hcol]
            constructor
            · intro _ x hx
              rcases List.mem_cons.mp hx with rfl | hx2
              · exact Bool.eq_false_iff.mpr hcol
              · exact ih.mp hr x hx2
            · intro _
              rfl

theorem findLastHit_some (b : GO) :
    ∀ (asts : List GO) (j : Nat), findLastHit b asts = some j →
      ∃ h : j < asts.length,
        checkCollision b (asts.get ⟨j, h⟩) = true ∧
        ∀ (k : Nat) (hk : k < asts.length), j < k → checkCollision b (asts.get ⟨k, hk⟩) = false := by
  intro asts
  induction asts with
  | nil =>
      intro j h
      simp [findLastHit] at h
  | cons a rest ih =>
      intro j hj
      cases hr : findLastHit b rest with
      | some j' =>
          rw [findLastHit, hr] at hj
          obtain rfl : j = j' + 1 := (Option.some_injective _ hj).symm
          obtain ⟨hlt, hcol, hafter⟩ := ih j' hr
          refine ⟨Nat.succ_lt_succ hlt, hcol, ?_⟩
          intro k hk hgt
          cases k with
          | zero => omega
          | succ k' => exact hafter k' (Nat.lt_of_succ_lt_succ hk) (by omega)
      | none =>
          rw [findLastHit, hr] at hj
          by_cases hcol : checkCollision b a = true
          · rw [if_pos hcol] at hj
            obtain rfl : j = 0 := (Option.some_injective _ hj).symm
            refine ⟨Nat.succ_pos _, hcol, ?_⟩
            intro k hk hgt
            cases k with
            | zero => omega
            | succ k' =>
                exact (findLastHit_none_iff b rest).mp hr (rest.get ⟨k', Nat.lt_of_succ_lt_succ hk⟩)
                  (List.get_mem rest k' (Nat.lt_of_succ_lt_succ hk))
          · rw [if_neg hcol] at hj
            simp at hj

/-- C9: in the level-1 scan, `findLastHit` reports exactly the first
overlapping asteroid in scan order (the source iterates asteroid indices
backwards, so that is the overlapping asteroid of largest index: every
higher index fails the overlap test), and on a hit the scan removes that
single asteroid (the list shrinks by exactly one) together with the bullet
and tests the bullet against no further asteroids; with no overlap the
bullet survives and the asteroid list is untouched. -/
theorem c9_scan (b : GO) (asts : List GO) :
    (∀ j : Nat, findLastHit b asts = some j →
      ∃ h : j < asts.length,
        checkCollision b (asts.get ⟨j, h⟩) = true ∧
        (∀ (k : Nat) (hk : k < asts.length), j < k → checkCollision b (asts.get ⟨k, hk⟩) = false) ∧
        asts.length = (asts.eraseIdx j).length + 1 ∧
        ∀ rest : List GO, l1Aux (b :: rest) asts = l1Aux rest (asts.eraseIdx j)) ∧
    (findLastHit b asts = none ↔ ∀ a ∈ asts, checkCollision b a = false) ∧
    (findLastHit b asts = none →
      ∀ rest : List GO,
        l1Aux (b :: rest) asts = ((l1Aux rest asts).1.cons b, (l1Aux rest asts).2)) := by
  refine ⟨?_, findLastHit_none_iff b asts, ?_⟩
  · intro j hj
    obtain ⟨hlt, hcol, hafter⟩ := findLastHit_some b asts j hj
    refine ⟨hlt, hcol, hafter, ?_, ?_⟩
    · rw [List.length_eraseIdx, if_pos hlt]
      omega
    · intro rest
      simp only [l1Aux, hj]
  · intro hnone rest
    simp only [l1Aux, hnone]

theorem c9_scan_witness :
    l1Aux [bulletC9] [asteroidC9a, asteroidC9b] =
      l1Aux [] ([asteroidC9a, asteroidC9b].eraseIdx 1) ∧
    ([asteroidC9a, asteroidC9b] : List GO).length =
      (([asteroidC9a, asteroidC9b] : List GO).eraseIdx 1).length + 1 := by
  obtain ⟨hlt, hcol, hafter, hlen, haux⟩ :=
    (c9_scan bulletC9 [asteroidC9a, asteroidC9b]).1 1 (by with_unfolding_all decide)
  exact ⟨haux [], hlen⟩

theorem listGetAppend (done : List GO) (b : GO) (rest : List GO) :
    (done ++ b :: rest)[done.length]? = some b := by
  induction done with
  | nil => simp
  | cons d ds ih => simpa using ih

theorem listSetAppend (done : List GO) (b b2 : GO) (rest : List GO) :
    (done ++ b :: rest).set done.length b2 = done ++ b2 :: rest := by
  induction done with
  | nil => rfl
  | cons d ds ih => simp [ih]

theorem listEraseAppend (done : List GO) (b : GO) (rest : List GO) :
    (done ++ b :: rest).eraseIdx done.length = done ++ rest := by
  induction done with
  | nil => rfl
  | cons d ds ih => simp [ih]

theorem bossBulletsLoopF_exit (fuel : Nat) (s : State) (i : Nat)
    (h : s.bossBullets.length ≤ i) :
    bossBulletsLoopF fuel s i = s := by
  cases fuel with
  | zero => rfl
  | succ n =>
      simp only [bossBulletsLoopF]
      rw [if_neg (by omega)]

theorem bulletPass_spec (n : Nat) :
    ∀ l : List GO, l.length ≤ n →
      (∀ (j : Nat) (h : j + 1 < l.length), ¬(advanceB (l.get ⟨j, Nat.lt_of_succ_lt h⟩)).y < 0) →
      bulletPass l = specBulletStep l := by
  induction n with
  | zero =>
      intro l hl _
      have : l = [] := List.length_eq_zero.mp (Nat.le_zero.mp hl)
      subst this
      rfl
  | succ n ih =>
      intro l hl hskip
      cases l with
      | nil => rfl
      | cons b rest0 =>
          cases rest0 with
          | nil =>
              simp only [bulletPass]
              split
              · next hex => simp [specBulletStep, hex]
              · next hex => simp [specBulletStep, hex]
          | cons c rest =>
              have hb : ¬(advanceB b).y < 0 := by
                have := hskip 0 (by simp)
                simpa using this
              simp only [bulletPass]
              rw [if_neg hb]
              have ih2 := ih (c :: rest) (by simp at hl ⊢; omega) ?_
              · rw [ih2]
                simp [specBulletStep, hb]
              · intro j h
                have hrange : j + 1 + 1 < (b :: c :: rest).length := by
                  simp at h ⊢
                  omega
                exact hskip (j + 1) hrange

theorem bossLoop_run :
    ∀ (pending done : List GO) (fuel : Nat) (s : State),
      s.bossBullets = done ++ pending →
      s.bullets = [] →
      pending.length ≤ fuel →
      (∀ p : GO, s.player = some p → ∀ b ∈ pending, checkCollision (advanceB b) p = false) →
      (∀ (j : Nat) (h : j + 1 < pending.length),
        ¬ screenH < (advanceB (pending.get ⟨j, Nat.lt_of_succ_lt h⟩)).y) →
      bossBulletsLoopF fuel s done.length =
        { s with bossBullets := done ++ specBossBulletStep pending } := by
  intro pending
  induction pending with
  | nil =>
      intro done fuel s hs hbul hfuel hpl hskip
      rw [bossBulletsLoopF_exit fuel s done.length (by rw [hs]; simp)]
      have he : done ++ specBossBulletStep [] = s.bossBullets := by
        simp [specBossBulletStep, hs]
      rw [he]
  | cons b rest ih =>
      intro done fuel s hs hbul hfuel hpl hskip
      cases fuel with
      | zero => simp at hfuel
      | succ n =>
          have hlen : done.length < s.bossBullets.length := by rw [hs]; simp
          have hget : s.bossBullets[done.length]? = some b := by
            rw [hs]
            exact listGetAppend done b rest
          have hcolp : ∀ p : GO, s.player = some p → checkCollision (advanceB b) p = false :=
            fun p hp => hpl p hp b (List.mem_cons_self b rest)
          simp only [bossBulletsLoopF]
          rw [if_pos hlen]
          by_cases hex : screenH < (advanceB b).y
          · have hrest : rest = [] := by
              cases rest with
              | nil => rfl
              | cons c r2 => exact absurd hex (hskip 0 (by simp))
            subst hrest
            have hvisit : visitBossBullet s done.length = { s with bossBullets := done } := by
              unfold visitBossBullet
              rw [hget]
              dsimp only
              rw [hs, listSetAppend done b (advanceB b) [], listEraseAppend done (advanceB b) [],
                  List.append_nil, if_pos hex]
              cases hp : s.player with
              | none =>
                  dsimp only
                  rw [hbul]
                  exact rfl
              | some p =>
                  dsimp only
                  rw [hcolp p hp, if_neg (by simp : ¬(false = true)), hbul]
                  exact rfl
            rw [hvisit]
            rw [bossBulletsLoopF_exit n _ (done.length + 1)
              (by show done.length ≤ done.length + 1; omega)]
            have hone : specBossBulletStep [b] = [] := by
              simp [specBossBulletStep, hex]
            rw [hone]
            simp
          · have hvisit : visitBossBullet s done.length =
                { s with bossBullets := done ++ advanceB b :: rest } := by
              unfold visitBossBullet
              rw [hget]
              dsimp only
              rw [hs, listSetAppend done b (advanceB b) rest, if_neg hex]
              cases hp : s.player with
              | none =>
                  dsimp only
                  rw [hbul]
                  exact rfl
              | some p =>
                  dsimp only
                  rw [hcolp p hp, if_neg (by simp : ¬(false = true)), hbul]
                  exact rfl
            rw [hvisit]
            have harg : done.length + 1 = (done ++ [advanceB b]).length := by simp
            rw [harg]
            have hres := ih (done ++ [advanceB b]) n
              { s with bossBullets := done ++ advanceB b :: rest }
              (by simp)
              hbul
              (by simp at hfuel ⊢; omega)
              (fun p hp x hx => hpl p hp x (List.mem_cons_of_mem b hx))
              (fun j h => hskip (j + 1) (by simp at h ⊢; omega))
            rw [hres]
            have hspec : specBossBulletStep (b :: rest) = advanceB b :: specBossBulletStep rest := by
              simp [specBossBulletStep, hex]
            rw [hspec]
            simp

/-- C7 counterexample: two consecutive player bullets that would both leave
the screen on the same tick.  The forEach-with-splice pass removes only the
first: the splice shifts the array under the advancing loop counter, so the
second bullet is skipped — neither advanced nor removed — and stays in the
collection, while the claimed advance-then-filter behavior would empty it. -/
theorem c7_counterexample :
    (advanceB bulletC7a).y < 0 ∧ (advanceB bulletC7b).y < 0 ∧
    bulletPass [bulletC7a, bulletC7b] = [bulletC7b] ∧
    specBulletStep [bulletC7a, bulletC7b] = [] := by
  refine ⟨?_, ?_, ?_, ?_⟩ <;> with_unfolding_all decide

/-- C7 as amended: the bullet passes advance each visited bullet and remove
it when off-screen, but a splice during the forEach skips the element that
shifts into the removed slot for the rest of the tick.  Consequently the
claimed advance-all-then-remove-all behavior holds exactly when no removed
bullet is followed by another bullet: if no non-final player bullet exits,
the player-bullet pass equals advance-then-filter, and if no non-final boss
bullet exits (and no boss bullet hits the player and no cancellation against
player bullets occurs), the boss-bullet loop equals advance-then-filter on
the boss-bullet collection; bullets skipped by a same-tick splice remain. -/
theorem c7_bulletRemoval :
    (∀ l : List GO,
      (∀ (j : Nat) (h : j + 1 < l.length), ¬(advanceB (l.get ⟨j, Nat.lt_of_succ_lt h⟩)).y < 0) →
      bulletPass l = specBulletStep l) ∧
    (∀ s : State, s.bullets = [] →
      (∀ p : GO, s.player = some p → ∀ b ∈ s.bossBullets, checkCollision (advanceB b) p = false) →
      (∀ (j : Nat) (h : j + 1 < s.bossBullets.length),
        ¬ screenH < (advanceB (s.bossBullets.get ⟨j, Nat.lt_of_succ_lt h⟩)).y) →
      bossBulletsLoopF s.bossBullets.length s 0 =
        { s with bossBullets := specBossBulletStep s.bossBullets }) := by
  constructor
  · exact fun l h => bulletPass_spec l.length l (le_refl _) h
  · intro s hbul hpl hskip
    have hrun := bossLoop_run s.bossBullets [] s.bossBullets.length s (by simp) hbul
      (le_refl _) hpl hskip
    simpa using hrun

theorem c7_bulletRemoval_witness :
    bulletPass [mkBullet 100 300 true] = specBulletStep [mkBullet 100 300 true] ∧
    bossBulletsLoopF stateC7.bossBullets.length stateC7 0 =
      { stateC7 with bossBullets := specBossBulletStep stateC7.bossBullets } := by
  constructor
  · refine c7_bulletRemoval.1 [mkBullet 100 300 true] ?_
    intro j h
    exfalso
    have h2 : j + 1 < 1 := h
    omega
  · refine c7_bulletRemoval.2 stateC7 rfl ?_ ?_
    · intro p hp b hb
      have hp2 : some mkPlayer = some p := hp
      rw [← Option.some_injective _ hp2]
      have hb2 : b ∈ [mkBullet 200 100 false] := hb
      rw [List.mem_singleton.mp hb2]
      with_unfolding_all decide
    · intro j h
      exfalso
      have h2 : j + 1 < 1 := h
      omega
